import Mathlib

/-!
Verification of the object-store core of the control-tower repository
(`src/iaas/s3.go`, `src/config/deploy_args.go`) against its specification.

The Go code is shallowly embedded: each provider call (HeadBucket, HeadObject,
GetObject, PutObject, ListObjectVersionsPages, DeleteObject, DeleteBucket) is
modelled by the response the provider gives to it, passed in as an argument,
and each Go function becomes a Lean function of those responses that mirrors
the Go control flow line by line.  Go errors are `GoErr`; an un-checked Go type
assertion to the AWS error interface is modelled by `errCode?`, whose failure
surfaces as a `GoResult.panic` outcome.
-/

/-- Byte strings (`[]byte` in Go). -/
abbrev Bytes := List Nat

/-- A Go `error` value as the s3 code can observe it: either a value
implementing the AWS `awserr.Error` interface (carrying a string code and a
message), or any other error value (the type assertion
`err.(awserr.Error)` fails on these). -/
inductive GoErr where
  | aws : String → String → GoErr
  | plain : String → GoErr
deriving DecidableEq, Repr

/-- The code the un-checked type assertion `err.(awserr.Error).Code()`
extracts, when it succeeds. -/
def errCode? : GoErr → Option String
  | GoErr.aws code _ => some code
  | GoErr.plain _ => none

/-- The message of an error, as `fmt.Errorf("... [%v]", err)` renders it. -/
def errMsg : GoErr → String
  | GoErr.aws code msg => code ++ ": " ++ msg
  | GoErr.plain msg => msg

/-- The outcome of running a Go function: a returned value, or a runtime
panic (here always from a failed `err.(awserr.Error)` type assertion). -/
inductive GoResult (α : Type) where
  | ret : α → GoResult α
  | panic : GoResult α
deriving DecidableEq, Repr

/-- `awsErrCodeNoSuchBucket` from `src/iaas/s3.go`. -/
def awsErrCodeNoSuchBucket : String := "NoSuchBucket"

/-- `awsErrCodeNoSuchKey` from `src/iaas/s3.go`. -/
def awsErrCodeNoSuchKey : String := "NoSuchKey"

/-- `awsErrCodeNotFound` from `src/iaas/s3.go`. -/
def awsErrCodeNotFound : String := "NotFound"

/-- `BucketExists` from `src/iaas/s3.go`, as a function of the HeadBucket
response (`none` = the request succeeded).  The Go return value is the pair
(bool, error). -/
def BucketExists (headBucketErr : Option GoErr) : GoResult (Bool × Option GoErr) :=
  match headBucketErr with
  | none => GoResult.ret (true, none)
  | some err =>
    match errCode? err with
    | none => GoResult.panic
    | some awsErrCode =>
      if awsErrCode ≠ awsErrCodeNotFound ∧ awsErrCode ≠ awsErrCodeNoSuchBucket then
        GoResult.ret (false, some err)
      else
        GoResult.ret (false, none)

/-- `HasFile` from `src/iaas/s3.go`, as a function of the HeadObject
response. -/
def HasFile (headObjectErr : Option GoErr) : GoResult (Bool × Option GoErr) :=
  match headObjectErr with
  | some err =>
    match errCode? err with
    | none => GoResult.panic
    | some awsErrCode =>
      if awsErrCode = awsErrCodeNotFound ∨ awsErrCode = awsErrCodeNoSuchKey then
        GoResult.ret (false, none)
      else
        GoResult.ret (false, some err)
  | none => GoResult.ret (true, none)

/-- What `EnsureFileExists` returns, plus one instrumentation field:
whether a PutObject request was issued during the call. -/
structure EnsureFileResult where
  contents : Option Bytes
  wasCreated : Bool
  err : Option GoErr
  putIssued : Bool
deriving DecidableEq, Repr

/-- `EnsureFileExists` from `src/iaas/s3.go`, as a function of the provider
responses: the GetObject response, the result of draining the returned body
(`ioutil.ReadAll`, only reached when GetObject succeeded), the PutObject
response (only reached on the creation path), and the `defaultContents`
argument. -/
def EnsureFileExists (getObjectErr : Option GoErr) (readAllResult : Except GoErr Bytes)
    (putObjectErr : Option GoErr) (defaultContents : Bytes) : GoResult EnsureFileResult :=
  match getObjectErr with
  | none =>
    match readAllResult with
    | Except.error e => GoResult.ret ⟨none, false, some e, false⟩
    | Except.ok contents => GoResult.ret ⟨some contents, false, none, false⟩
  | some err =>
    match errCode? err with
    | none => GoResult.panic
    | some awsErrCode =>
      if awsErrCode ≠ awsErrCodeNoSuchKey ∧ awsErrCode ≠ awsErrCodeNotFound then
        GoResult.ret ⟨none, false, some err, false⟩
      else
        match putObjectErr with
        | some e => GoResult.ret ⟨none, false, some e, true⟩
        | none => GoResult.ret ⟨some defaultContents, true, none, true⟩

/-- One entry of a ListObjectVersions page: a (key, version-id) pair. -/
structure ObjectVersion where
  key : String
  versionId : String
deriving DecidableEq, Repr

/-- One page of a ListObjectVersionsPages enumeration.  The provider reports
plain versions in `versions` (Go `output.Versions`) and delete markers in
`deleteMarkers` (Go `output.DeleteMarkers`). -/
structure ListPage where
  versions : List ObjectVersion
  deleteMarkers : List ObjectVersion
deriving DecidableEq, Repr

/-- What `DeleteVersionedBucket` returns plus the requests it issued:
the per-version DeleteObject requests, in order, and whether the final
DeleteBucket request was issued. -/
structure DeleteVBResult where
  err : Option GoErr
  issuedDeletes : List ObjectVersion
  bucketDeleteIssued : Bool
deriving DecidableEq, Repr

/-- The `for _, object := range objects` loop of `DeleteVersionedBucket`:
issues DeleteObject requests in order, stopping at the first failure.
Returns the issued requests and the first failure, if any. -/
def runDeletes (deleteObjectErr : ObjectVersion → Option GoErr) :
    List ObjectVersion → List ObjectVersion × Option GoErr
  | [] => ([], none)
  | o :: rest =>
    match deleteObjectErr o with
    | some e => ([o], some e)
    | none =>
      let r := runDeletes deleteObjectErr rest
      (o :: r.1, r.2)

/-- `DeleteVersionedBucket` from `src/iaas/s3.go`, as a function of the
provider responses: the ListObjectVersionsPages outcome (an error, or the
pages), the DeleteObject response per version, and the DeleteBucket response.
The Go code appends only `output.Versions` of each page to `objects`, and in
the delete loop executes `if err != nil { return nil }`. -/
def DeleteVersionedBucket (listErr : Option GoErr) (pages : List ListPage)
    (deleteObjectErr : ObjectVersion → Option GoErr)
    (deleteBucketErr : Option GoErr) : DeleteVBResult :=
  match listErr with
  | some e => ⟨some e, [], false⟩
  | none =>
    let objects := (pages.map ListPage.versions).flatten
    match runDeletes deleteObjectErr objects with
    | (issued, some _) => ⟨none, issued, false⟩
    | (issued, none) => ⟨deleteBucketErr, issued, true⟩

/-- The CreateBucket request as the Go code builds it. -/
structure CreateBucketInput where
  bucket : String
  locationConstraint : Option String
deriving DecidableEq, Repr

/-- What `CreateBucket` returns plus the request it issued and whether the
PutBucketVersioning request was issued. -/
structure CreateBucketTrace where
  request : CreateBucketInput
  versioningIssued : Bool
  err : Option GoErr
deriving DecidableEq, Repr

/-- `CreateBucket` from `src/iaas/s3.go`, as a function of the session region,
the bucket name, and the provider responses to the CreateBucket and
PutBucketVersioning requests.  The location constraint is set exactly when the
region is not "us-east-1"; both failure paths wrap the provider error with
`fmt.Errorf`. -/
def CreateBucket (region name : String) (createErr putVersioningErr : Option GoErr) :
    CreateBucketTrace :=
  let bucketInput : CreateBucketInput :=
    if region ≠ "us-east-1" then ⟨name, some region⟩ else ⟨name, none⟩
  match createErr with
  | some e =>
    ⟨bucketInput, false,
      some (GoErr.plain ("error creating S3 bucket [" ++ name ++ "]: [" ++ errMsg e ++ "]"))⟩
  | none =>
    match putVersioningErr with
    | some e =>
      ⟨bucketInput, true,
        some (GoErr.plain
          ("error enabling versioning on S3 bucket [" ++ name ++ "]: [" ++ errMsg e ++ "]"))⟩
    | none => ⟨bucketInput, true, none⟩

/-! ### A store-backed provider

To state the two-call idempotency properties, the external S3 store is given
its standard data-model semantics: a blob store mapping (bucket, key) to the
current contents.  A healthy provider answers GetObject with the stored
contents or a `NoSuchKey` AWS error, drains bodies without failure, and
accepts every PutObject. -/

/-- The blob store: the current contents per (bucket, key). -/
abbrev Store := List ((String × String) × Bytes)

/-- The contents stored at (bucket, key), if any. -/
def storeGet (s : Store) (bucket key : String) : Option Bytes :=
  s.lookup (bucket, key)

/-- The store after a PutObject of `contents` at (bucket, key). -/
def storePut (s : Store) (bucket key : String) (contents : Bytes) : Store :=
  ((bucket, key), contents) :: s

/-- The GetObject response a healthy store gives: success when the key holds
contents, a `NoSuchKey` AWS error otherwise. -/
def storeGetObjectErr (s : Store) (bucket key : String) : Option GoErr :=
  match storeGet s bucket key with
  | some _ => none
  | none => some (GoErr.aws awsErrCodeNoSuchKey "The specified key does not exist.")

/-- Draining the GetObject body against a healthy store: the stored contents
(this value is only consulted when GetObject succeeded). -/
def storeReadAll (s : Store) (bucket key : String) : Except GoErr Bytes :=
  match storeGet s bucket key with
  | some contents => Except.ok contents
  | none => Except.ok []

/-- `EnsureFileExists` run against a healthy store-backed provider: the call
is `EnsureFileExists` on the store's responses, and the store gains the
written default exactly when the call issued a PutObject. -/
def EnsureFileExistsOnStore (s : Store) (bucket key : String) (defaultContents : Bytes) :
    Store × GoResult EnsureFileResult :=
  match EnsureFileExists (storeGetObjectErr s bucket key) (storeReadAll s bucket key)
      none defaultContents with
  | GoResult.ret res =>
    (if res.putIssued then storePut s bucket key defaultContents else s, GoResult.ret res)
  | GoResult.panic => (s, GoResult.panic)

/-! ### The bucket world and the ensure-container operation -/

/-- The names of the buckets that currently exist at the provider. -/
abbrev BucketWorld := List String

/-- The HeadBucket response a healthy provider gives: success when the bucket
exists, a generic `NotFound` AWS error otherwise (HEAD on a missing bucket
returns the generic code). -/
def worldHeadBucketErr (w : BucketWorld) (name : String) : Option GoErr :=
  if w.contains name then none else some (GoErr.aws awsErrCodeNotFound "Not Found")

/-- Modelled from the spec: the repository declares `EnsureBucketExists` in
the `iaas.IClient` interface (see the test double in
`src/testsupport/fakes.go`) but its implementation is not among the staged
source files.  Per the spec, `EnsureContainer` checks existence first and, if
the container is absent, creates it (which also enables versioning) and
reports losslessly whether it created the container or found it already
existing.  The existence check is the embedded `BucketExists` and the
creation is the embedded `CreateBucket`, run here against a healthy-provider
world whose creation and versioning responses are injectable. -/
def EnsureBucketExists (w : BucketWorld) (region name : String)
    (createErr putVersioningErr : Option GoErr) :
    GoResult (BucketWorld × Bool × Option GoErr) :=
  match BucketExists (worldHeadBucketErr w name) with
  | GoResult.panic => GoResult.panic
  | GoResult.ret (_, some e) => GoResult.ret (w, false, some e)
  | GoResult.ret (true, none) => GoResult.ret (w, false, none)
  | GoResult.ret (false, none) =>
    let t := CreateBucket region name createErr putVersioningErr
    match t.err with
    | some e => GoResult.ret (w, false, some e)
    | none => GoResult.ret (name :: w, true, none)

/-! ### `src/config/deploy_args.go` -/

/-- `DeployArgs` from `src/config/deploy_args.go`. -/
structure DeployArgs where
  IAAS : String
  AWSRegion : String
  Domain : String
  TLSCert : String
  TLSKey : String
  WorkerCount : Int
  WorkerSize : String
  WebSize : String
  SelfUpdate : Bool
  DBSize : String
  DBSizeIsSet : Bool
  RestrictIPs : String
deriving DecidableEq, Repr

/-- `WorkerSizes` from `src/config/deploy_args.go`. -/
def WorkerSizes : List String :=
  ["medium", "large", "xlarge", "2xlarge", "4xlarge", "10xlarge", "16xlarge"]

/-- `WebSizes` from `src/config/deploy_args.go`. -/
def WebSizes : List String := ["small", "medium", "large", "xlarge", "2xlarge"]

/-- `DBSizes` from `src/config/deploy_args.go` (a map from SML size to RDS
instance class). -/
def DBSizes : List (String × String) :=
  [("small", "db.t2.small"), ("medium", "db.t2.medium"), ("large", "db.m4.large"),
   ("xlarge", "db.m4.xlarge"), ("2xlarge", "db.m4.2xlarge"), ("4xlarge", "db.m4.4xlarge")]

/-- `validateCertFields` from `src/config/deploy_args.go`.  Errors are the
message of the returned Go error; `none` means the Go function returned
nil. -/
def validateCertFields (args : DeployArgs) : Option String :=
  if args.TLSKey ≠ "" ∧ args.TLSCert = "" then
    some "--tls-key requires --tls-cert to also be provided"
  else if args.TLSCert ≠ "" ∧ args.TLSKey = "" then
    some "--tls-cert requires --tls-key to also be provided"
  else if (args.TLSKey ≠ "" ∨ args.TLSCert ≠ "") ∧ args.Domain = "" then
    some "custom certificates require --domain to be provided"
  else none

/-- `validateWorkerFields` from `src/config/deploy_args.go`.  The Go loop over
`WorkerSizes` returns nil on the first match. -/
def validateWorkerFields (args : DeployArgs) : Option String :=
  if args.WorkerCount < 1 then some "minimum of workers is 1"
  else if WorkerSizes.contains args.WorkerSize then none
  else some ("unknown worker size: " ++ args.WorkerSize)

/-- `validateWebFields` from `src/config/deploy_args.go`. -/
def validateWebFields (args : DeployArgs) : Option String :=
  if WebSizes.contains args.WebSize then none
  else some ("unknown web node size: " ++ args.WebSize)

/-- `validateDBFields` from `src/config/deploy_args.go`: membership of
`args.DBSize` among the keys of `DBSizes`. -/
def validateDBFields (args : DeployArgs) : Option String :=
  if (DBSizes.lookup args.DBSize).isSome then none
  else some ("unknown DB size: " ++ args.DBSize)

/-- `Validate` from `src/config/deploy_args.go`: the four group validators in
order, returning the first failure. -/
def Validate (args : DeployArgs) : Option String :=
  match validateCertFields args with
  | some e => some e
  | none =>
    match validateWorkerFields args with
    | some e => some e
    | none =>
      match validateWebFields args with
      | some e => some e
      | none => validateDBFields args

/-- The validity condition of claim C9, written from the claim's own words
(to be compared against the embedded `Validate`): certificates key/cert both
empty or both non-empty; a certificate requires a domain; at least one
worker; worker, web and DB sizes among the permitted ones. -/
def DeployArgsValidSpec (args : DeployArgs) : Prop :=
  ((args.TLSKey = "" ∧ args.TLSCert = "") ∨ (args.TLSKey ≠ "" ∧ args.TLSCert ≠ "")) ∧
  ((args.TLSKey ≠ "" ∨ args.TLSCert ≠ "") → args.Domain ≠ "") ∧
  1 ≤ args.WorkerCount ∧
  args.WorkerSize ∈ WorkerSizes ∧
  args.WebSize ∈ WebSizes ∧
  (DBSizes.lookup args.DBSize).isSome = true

/-! ## Theorems -/

/-- C1: at a bucket whose listing returns one version and whose per-version
delete fails, `DeleteVersionedBucket` aborts before the DeleteBucket request
but returns nil — the Go loop body is `if err != nil { return nil }` — so the
delete error is masked as success instead of being surfaced. -/
theorem DeleteVersionedBucket_returns_nil_on_failed_delete :
    DeleteVersionedBucket none [⟨[⟨"a", "v1"⟩], []⟩]
      (fun _ => some (GoErr.aws "AccessDenied" "Access Denied")) none =
      ⟨none, [⟨"a", "v1"⟩], false⟩ := by decide

/-- C2: at a bucket whose listing returns a page with no plain versions and
one delete-marker entry, `DeleteVersionedBucket` issues no per-version delete
at all and still issues the DeleteBucket request: the Go code appends only
`output.Versions` and ignores `output.DeleteMarkers`, so delete-marker
entries are never deleted. -/
theorem DeleteVersionedBucket_ignores_delete_markers :
    DeleteVersionedBucket none [⟨[], [⟨"a", "v1"⟩]⟩] (fun _ => none) none =
      ⟨none, [], true⟩ := by decide

/-- C3: `EnsureFileExists` returns the stored content with wasCreated = false
and issues no write when the load succeeds; on a not-found load error it
writes `defaultContents` and returns (defaultContents, true); on any other
load error it returns that error without issuing a write. -/
theorem EnsureFileExists_get_or_create (c : Bytes) (code m : String)
    (ra : Except GoErr Bytes) (pe : Option GoErr) (d : Bytes) :
    (EnsureFileExists none (Except.ok c) pe d =
        GoResult.ret ⟨some c, false, none, false⟩) ∧
    ((code = awsErrCodeNoSuchKey ∨ code = awsErrCodeNotFound) →
        EnsureFileExists (some (GoErr.aws code m)) ra none d =
          GoResult.ret ⟨some d, true, none, true⟩) ∧
    (code ≠ awsErrCodeNoSuchKey → code ≠ awsErrCodeNotFound →
        EnsureFileExists (some (GoErr.aws code m)) ra pe d =
          GoResult.ret ⟨none, false, some (GoErr.aws code m), false⟩) := by
  refine ⟨rfl, ?_, ?_⟩
  · intro h
    rcases h with h | h <;> subst h <;> rfl
  · intro h1 h2
    simp only [EnsureFileExists, errCode?]
    rw [if_pos ⟨h1, h2⟩]

/-- C6: the CreateBucket request carries no location constraint exactly when
the configured region is "us-east-1", and carries a constraint naming exactly
the configured region otherwise. -/
theorem CreateBucket_location_constraint (region name : String)
    (createErr putVersioningErr : Option GoErr) :
    (region = "us-east-1" →
        (CreateBucket region name createErr putVersioningErr).request.locationConstraint =
          none) ∧
    (region ≠ "us-east-1" →
        (CreateBucket region name createErr putVersioningErr).request.locationConstraint =
          some region) := by
  constructor
  · intro h
    subst h
    cases createErr <;> cases putVersioningErr <;> rfl
  · intro h
    cases createErr <;> cases putVersioningErr <;> simp [CreateBucket, h]

/-- C10: whenever the provider error does not implement the AWS error-code
interface, the un-checked downcast `err.(awserr.Error)` in `BucketExists`,
`HasFile` and `EnsureFileExists` panics instead of returning an error
result. -/
theorem awserr_downcast_panics_on_plain_error (m : String) (ra : Except GoErr Bytes)
    (pe : Option GoErr) (d : Bytes) :
    BucketExists (some (GoErr.plain m)) = GoResult.panic ∧
    HasFile (some (GoErr.plain m)) = GoResult.panic ∧
    EnsureFileExists (some (GoErr.plain m)) ra pe d = GoResult.panic :=
  ⟨rfl, rfl, rfl⟩

/-- C5: the existence checks downgrade their not-found-class provider errors
to (false, nil) — for `HasFile` the object codes NotFound and NoSuchKey, for
`BucketExists` the container codes NotFound and NoSuchBucket — return every
other AWS provider failure as an error, and never return (true, non-nil
error) on any input. -/
theorem existence_checks_downgrade_not_found (e : GoErr) (c : String)
    (h : errCode? e = some c) :
    ((c = awsErrCodeNotFound ∨ c = awsErrCodeNoSuchKey) →
        HasFile (some e) = GoResult.ret (false, none)) ∧
    (c ≠ awsErrCodeNotFound → c ≠ awsErrCodeNoSuchKey →
        HasFile (some e) = GoResult.ret (false, some e)) ∧
    ((c = awsErrCodeNotFound ∨ c = awsErrCodeNoSuchBucket) →
        BucketExists (some e) = GoResult.ret (false, none)) ∧
    (c ≠ awsErrCodeNotFound → c ≠ awsErrCodeNoSuchBucket →
        BucketExists (some e) = GoResult.ret (false, some e)) ∧
    (∀ (oe : Option GoErr) (e2 : GoErr),
        HasFile oe ≠ GoResult.ret (true, some e2) ∧
        BucketExists oe ≠ GoResult.ret (true, some e2)) := by
  cases e with
  | plain m => cases h
  | aws cc mm =>
    have hc : cc = c := by
      simpa [errCode?] using h
    subst hc
    refine ⟨?_, ?_, ?_, ?_, ?_⟩
    · intro hor
      simp only [HasFile, errCode?]
      rw [if_pos hor]
    · intro h1 h2
      simp only [HasFile, errCode?]
      rw [if_neg (by simp [h1, h2])]
    · intro hor
      simp only [BucketExists, errCode?]
      rw [if_neg (by simp only [not_and_or, not_not]; exact hor)]
    · intro h1 h2
      simp only [BucketExists, errCode?]
      rw [if_pos ⟨h1, h2⟩]
    · intro oe e2
      constructor
      · cases oe with
        | none => simp [HasFile]
        | some err =>
          cases err with
          | plain m => simp [HasFile, errCode?]
          | aws c2 m2 =>
            simp only [HasFile, errCode?]
            split <;> simp
      · cases oe with
        | none => simp [BucketExists]
        | some err =>
          cases err with
          | plain m => simp [BucketExists, errCode?]
          | aws c2 m2 =>
            simp only [BucketExists, errCode?]
            split <;> simp

/-- C5 witness: at the concrete error with code NotFound, HasFile returns
(false, nil). -/
theorem existence_checks_downgrade_not_found_witness :
    HasFile (some (GoErr.aws "NotFound" "no such object")) = GoResult.ret (false, none) :=
  (existence_checks_downgrade_not_found (GoErr.aws "NotFound" "no such object")
    "NotFound" rfl).1 (Or.inl rfl)

/-- C7 counterexample: the three not-found codes are not treated uniformly by
every operation.  `BucketExists` on a NoSuchKey-coded error does not produce
the unified not-found outcome (false, nil) but surfaces the error, and
`HasFile` does the same on a NoSuchBucket-coded error. -/
theorem not_found_codes_not_uniform :
    BucketExists (some (GoErr.aws "NoSuchKey" "The specified key does not exist.")) ≠
      GoResult.ret (false, none) ∧
    BucketExists (some (GoErr.aws "NoSuchKey" "The specified key does not exist.")) =
      GoResult.ret (false, some (GoErr.aws "NoSuchKey" "The specified key does not exist.")) ∧
    HasFile (some (GoErr.aws "NoSuchBucket" "The specified bucket does not exist.")) =
      GoResult.ret
        (false, some (GoErr.aws "NoSuchBucket" "The specified bucket does not exist.")) := by
  refine ⟨?_, ?_, ?_⟩ <;> decide

/-- C7 as amended: each operation maps the generic NotFound code together
with its resource-specific not-found code — NoSuchBucket for `BucketExists`,
NoSuchKey for `HasFile` and `EnsureFileExists` — to the unified not-found
outcome, and propagates every other AWS provider error unmodified (the very
same error value). -/
theorem not_found_normalization_per_operation (c m : String)
    (ra : Except GoErr Bytes) (d : Bytes) :
    ((c = awsErrCodeNotFound ∨ c = awsErrCodeNoSuchBucket) →
        BucketExists (some (GoErr.aws c m)) = GoResult.ret (false, none)) ∧
    (c ≠ awsErrCodeNotFound → c ≠ awsErrCodeNoSuchBucket →
        BucketExists (some (GoErr.aws c m)) = GoResult.ret (false, some (GoErr.aws c m))) ∧
    ((c = awsErrCodeNotFound ∨ c = awsErrCodeNoSuchKey) →
        HasFile (some (GoErr.aws c m)) = GoResult.ret (false, none)) ∧
    (c ≠ awsErrCodeNotFound → c ≠ awsErrCodeNoSuchKey →
        HasFile (some (GoErr.aws c m)) = GoResult.ret (false, some (GoErr.aws c m))) ∧
    ((c = awsErrCodeNoSuchKey ∨ c = awsErrCodeNotFound) →
        EnsureFileExists (some (GoErr.aws c m)) ra none d =
          GoResult.ret ⟨some d, true, none, true⟩) ∧
    (c ≠ awsErrCodeNoSuchKey → c ≠ awsErrCodeNotFound →
        ∀ pe, EnsureFileExists (some (GoErr.aws c m)) ra pe d =
          GoResult.ret ⟨none, false, some (GoErr.aws c m), false⟩) := by
  refine ⟨?_, ?_, ?_, ?_, ?_, ?_⟩
  · intro hor
    simp only [BucketExists, errCode?]
    rw [if_neg (by simp only [not_and_or, not_not]; exact hor)]
  · intro h1 h2
    simp only [BucketExists, errCode?]
    rw [if_pos ⟨h1, h2⟩]
  · intro hor
    simp only [HasFile, errCode?]
    rw [if_pos hor]
  · intro h1 h2
    simp only [HasFile, errCode?]
    rw [if_neg (by simp [h1, h2])]
  · intro hor
    rcases hor with h | h <;> subst h <;> rfl
  · intro h1 h2 pe
    simp only [EnsureFileExists, errCode?]
    rw [if_pos ⟨h1, h2⟩]

/-- C4: against a store where (bucket, key) is absent, two successive
`EnsureFileExists` calls with different defaults both return the first call's
content (the first default): the first call writes it and reports
wasCreated = true, the second call reads it back, reports wasCreated = false
and issues no write. -/
theorem EnsureFileExists_first_default_wins (s : Store) (bucket key : String)
    (d1 d2 : Bytes) (habsent : storeGet s bucket key = none) (_hne : d1 ≠ d2) :
    (EnsureFileExistsOnStore s bucket key d1).2 =
      GoResult.ret ⟨some d1, true, none, true⟩ ∧
    (EnsureFileExistsOnStore (EnsureFileExistsOnStore s bucket key d1).1 bucket key d2).2 =
      GoResult.ret ⟨some d1, false, none, false⟩ := by
  have h1 : EnsureFileExistsOnStore s bucket key d1 =
      (storePut s bucket key d1, GoResult.ret ⟨some d1, true, none, true⟩) := by
    unfold EnsureFileExistsOnStore storeGetObjectErr storeReadAll
    rw [habsent]
    rfl
  have hget : storeGet (storePut s bucket key d1) bucket key = some d1 := by
    simp [storeGet, storePut]
  refine ⟨by rw [h1], ?_⟩
  rw [h1]
  unfold EnsureFileExistsOnStore storeGetObjectErr storeReadAll
  rw [hget]
  rfl

/-- C4 witness: on the empty store, seeding "cfg-store"/"state.json" with the
bytes of a two-byte document returns (that document, true), and a second call
with a different default returns (the same document, false). -/
theorem EnsureFileExists_first_default_wins_witness :
    (EnsureFileExistsOnStore [] "cfg-store" "state.json" [123, 125]).2 =
      GoResult.ret ⟨some [123, 125], true, none, true⟩ ∧
    (EnsureFileExistsOnStore (EnsureFileExistsOnStore [] "cfg-store" "state.json" [123, 125]).1
        "cfg-store" "state.json" []).2 =
      GoResult.ret ⟨some [123, 125], false, none, false⟩ :=
  EnsureFileExists_first_default_wins [] "cfg-store" "state.json" [123, 125] []
    rfl (by decide)

/-- C8: the ensure-container operation checks existence first; called twice
in sequence on an absent name against a healthy provider, the first call
creates and reports created = true, the second reports created = false, and
neither surfaces an error; creation issues the versioning-enablement request,
and a versioning-enablement failure is surfaced as an error by the creation
path. -/
theorem EnsureBucketExists_created_then_already_exists (w : BucketWorld)
    (region name : String) (h : w.contains name = false) :
    EnsureBucketExists w region name none none =
      GoResult.ret (name :: w, true, none) ∧
    EnsureBucketExists (name :: w) region name none none =
      GoResult.ret (name :: w, false, none) ∧
    (CreateBucket region name none none).versioningIssued = true ∧
    (∀ e, (CreateBucket region name none (some e)).err ≠ none) := by
  refine ⟨?_, ?_, rfl, ?_⟩
  · unfold EnsureBucketExists worldHeadBucketErr
    rw [if_neg (by rw [h]; simp)]
    rfl
  · unfold EnsureBucketExists worldHeadBucketErr
    rw [if_pos (by simp)]
    rfl
  · intro e
    simp [CreateBucket]

/-- C8 witness: on a world with no buckets, ensuring "ct-bucket" in
"eu-west-1" creates it and reports created = true. -/
theorem EnsureBucketExists_created_then_already_exists_witness :
    EnsureBucketExists [] "eu-west-1" "ct-bucket" none none =
      GoResult.ret (["ct-bucket"], true, none) :=
  (EnsureBucketExists_created_then_already_exists [] "eu-west-1" "ct-bucket" rfl).1

/-- `validateCertFields` accepts exactly the argument vectors whose TLS key
and certificate are both empty or both set, with a domain whenever one is
set. -/
theorem validateCertFields_eq_none_iff (args : DeployArgs) :
    validateCertFields args = none ↔
      (((args.TLSKey = "" ∧ args.TLSCert = "") ∨
        (args.TLSKey ≠ "" ∧ args.TLSCert ≠ "")) ∧
       ((args.TLSKey ≠ "" ∨ args.TLSCert ≠ "") → args.Domain ≠ "")) := by
  unfold validateCertFields
  by_cases hk : args.TLSKey = "" <;> by_cases hc : args.TLSCert = "" <;>
    by_cases hd : args.Domain = "" <;> simp [hk, hc, hd]

/-- `validateWorkerFields` accepts exactly a worker count of at least one
with a permitted worker size. -/
theorem validateWorkerFields_eq_none_iff (args : DeployArgs) :
    validateWorkerFields args = none ↔
      (1 ≤ args.WorkerCount ∧ args.WorkerSize ∈ WorkerSizes) := by
  unfold validateWorkerFields
  by_cases h1 : args.WorkerCount < 1 <;>
    by_cases h2 : WorkerSizes.contains args.WorkerSize <;>
      (rw [List.elem_iff] at h2; simp [h1, h2]) <;> omega

/-- `validateWebFields` accepts exactly a permitted web size. -/
theorem validateWebFields_eq_none_iff (args : DeployArgs) :
    validateWebFields args = none ↔ args.WebSize ∈ WebSizes := by
  unfold validateWebFields
  by_cases h : WebSizes.contains args.WebSize <;>
    rw [List.elem_iff] at h <;> simp [h]

/-- `validateDBFields` accepts exactly a DB size that is a key of the
`DBSizes` map. -/
theorem validateDBFields_eq_none_iff (args : DeployArgs) :
    validateDBFields args = none ↔ (DBSizes.lookup args.DBSize).isSome = true := by
  unfold validateDBFields
  by_cases h : (DBSizes.lookup args.DBSize).isSome <;> simp [h]

/-- C9: `Validate` returns nil exactly on the argument vectors the claim
describes (certificates both-or-neither plus domain, worker count at least
one, permitted worker, web and DB sizes), and when a group is invalid the
error of the earliest-checked invalid group (certificates, workers, web, DB)
is the one returned. -/
theorem Validate_none_iff_valid (args : DeployArgs) :
    (Validate args = none ↔ DeployArgsValidSpec args) ∧
    (validateCertFields args ≠ none → Validate args = validateCertFields args) ∧
    (validateCertFields args = none → validateWorkerFields args ≠ none →
        Validate args = validateWorkerFields args) ∧
    (validateCertFields args = none → validateWorkerFields args = none →
        validateWebFields args ≠ none → Validate args = validateWebFields args) ∧
    (validateCertFields args = none → validateWorkerFields args = none →
        validateWebFields args = none → Validate args = validateDBFields args) := by
  have hv : Validate args = none ↔
      (validateCertFields args = none ∧ validateWorkerFields args = none ∧
       validateWebFields args = none ∧ validateDBFields args = none) := by
    unfold Validate
    cases hc : validateCertFields args <;> cases hw : validateWorkerFields args <;>
      cases hweb : validateWebFields args <;> simp
  refine ⟨?_, ?_, ?_, ?_, ?_⟩
  · rw [hv, validateCertFields_eq_none_iff, validateWorkerFields_eq_none_iff,
      validateWebFields_eq_none_iff, validateDBFields_eq_none_iff]
    unfold DeployArgsValidSpec
    tauto
  · intro h
    cases hc : validateCertFields args with
    | none => exact absurd hc h
    | some e => simp [Validate, hc]
  · intro hc hw2
    cases hw : validateWorkerFields args with
    | none => exact absurd hw hw2
    | some e => simp [Validate, hc, hw]
  · intro hc hw hweb2
    cases hweb : validateWebFields args with
    | none => exact absurd hweb hweb2
    | some e => simp [Validate, hc, hw, hweb]
  · intro hc hw hweb
    simp [Validate, hc, hw, hweb]
